import Mathlib

/-!
Verification of the Syndual streaming-payment settlement core.

Shallow embedding of:
- `QStreamPayments` (Solidity contract): `createStream`, `getWithdrawable`,
  `withdraw` over a stream list and a `withdrawn` mapping.  All contract
  arithmetic is `uint256` with Solidity 0.8 checked semantics; field bounds
  (`ratePerSecond : uint128`, `start end : uint64`) keep every intermediate
  below `2^192`, so the embedding uses `Nat` directly (a separate theorem
  establishes the `2^192 < 2^256` bound).  `require` failures revert the
  whole call, so a failing operation is an `Except.error` carrying no state.
- The TypeScript SDK (`packages/sdk/src/index.ts`): `calculateStreamFlow`,
  `getStreamStatus`, `validateStream`, `BatchStreamManager.validateBatch`,
  `StreamManager.updateSettlement`, `formatStreamAmount`,
  `parseStreamAmount`.  JavaScript `bigint` is arbitrary-precision and
  signed, so those are embedded over `Int`.  Decimal strings produced and
  consumed by the formatting pair are embedded as big-endian digit lists;
  the single dot separating the two digit runs is embedded as the pair
  constructor (a JS decimal representation of a bigint never contains a dot).
-/

namespace Syndual

/-! ## Data model -/

/-- Stream status enumeration from `core-types` (`StreamStatus`). -/
inductive StreamStatus where
  | ACTIVE
  | PAUSED
  | SETTLED
  | CANCELLED
  | EXPIRED
deriving DecidableEq, Repr

/-- The SDK `Stream` interface (`core-types`): addresses are strings,
numeric fields are JS bigints (`Int`), and `total`/`settled`/`paused`
are optional fields (`Option`). -/
structure Stream where
  from_ : String
  to_ : String
  ratePerSecond : Int
  start : Int
  end_ : Int
  total : Option Int := none
  settled : Option Int := none
  paused : Option Bool := none
deriving DecidableEq, Repr

/-- The on-chain `QStreamPayments.Stream` struct: `from`/`to` are addresses
(`Nat`), `ratePerSecond : uint128`, `start end : uint64`. -/
structure CStream where
  from_ : Nat
  to_ : Nat
  ratePerSecond : Nat
  start : Nat
  end_ : Nat
deriving DecidableEq, Repr

/-- The mutable contract storage of `QStreamPayments`: the `streams` array
and the `withdrawn` mapping (`streamId => amount already withdrawn`;
a Solidity mapping defaults every absent key to 0, embedded as a total
function). -/
structure ContractState where
  streams : List CStream
  withdrawn : Nat → Nat

/-- View of an on-chain stream as an SDK `Stream` (addresses are not used
by any numeric function; optional fields absent). -/
def CStream.toStream (s : CStream) : Stream :=
  { from_ := "", to_ := "", ratePerSecond := (s.ratePerSecond : Int),
    start := (s.start : Int), end_ := (s.end_ : Int) }

/-! ## SDK flow arithmetic: `calculateStreamFlow` -/

/-- `calculateStreamFlow(stream, currentTime)` from the SDK:
returns `0` before `start`, `rate * (end - start)` from `end` on, and
`rate * (current - start)` in between.  All arithmetic is JS bigint. -/
def calculateStreamFlow (stream : Stream) (currentTime : Int) : Int :=
  if currentTime < stream.start then 0
  else if stream.end_ ≤ currentTime then stream.ratePerSecond * (stream.end_ - stream.start)
  else stream.ratePerSecond * (currentTime - stream.start)

/-! ## Contract: `getWithdrawable` and `withdraw` -/

/-- The arithmetic body of `QStreamPayments.getWithdrawable` for one stream
and one already-withdrawn amount: clamp `now` to `end`, owe
`elapsed * rate`, and pay out the part not yet withdrawn (0 if the
already-withdrawn amount covers everything owed). -/
def withdrawableAmount (s : CStream) (alreadyWithdrawn now : Nat) : Nat :=
  if now ≤ s.start then 0
  else
    let effectiveEnd := if now < s.end_ then now else s.end_
    let elapsed := effectiveEnd - s.start
    let totalOwed := elapsed * s.ratePerSecond
    if totalOwed ≤ alreadyWithdrawn then 0
    else totalOwed - alreadyWithdrawn

/-- `QStreamPayments.getWithdrawable(streamId)` at timestamp `now`
(`block.timestamp`): reverts (`none`) on an unknown stream id. -/
def getWithdrawable (st : ContractState) (streamId now : Nat) : Option Nat :=
  match st.streams[streamId]? with
  | none => none
  | some s => some (withdrawableAmount s (st.withdrawn streamId) now)

/-- Revert reasons of `QStreamPayments.withdraw`. -/
inductive WithdrawError where
  | invalidStream
  | nothingToWithdraw
  | insufficientAllowance
  | transferFailed
deriving DecidableEq, Repr

/-- `QStreamPayments.withdraw(streamId)`: computes the withdrawable amount,
reverts with `nothing to withdraw` when it is 0, reverts when the payer's
allowance is short or the token transfer fails (the `withdrawn` increment
performed before `transferFrom` is undone by the revert), and otherwise
records `withdrawn[streamId] += amount`.  `allowance` and `transferOk`
stand for the external token collaborator. -/
def withdraw (st : ContractState) (streamId now allowance : Nat) (transferOk : Bool) :
    Except WithdrawError ContractState :=
  match st.streams[streamId]? with
  | none => .error .invalidStream
  | some s =>
    let amount := withdrawableAmount s (st.withdrawn streamId) now
    if amount = 0 then .error .nothingToWithdraw
    else if allowance < amount then .error .insufficientAllowance
    else if transferOk then
      .ok { st with withdrawn := fun j => if j = streamId then st.withdrawn j + amount else st.withdrawn j }
    else .error .transferFailed

/-- One external call to `withdraw`: the observation timestamp and the
token-collaborator outcome. -/
structure WithdrawCall where
  now : Nat
  allowance : Nat
  transferOk : Bool

/-- A reverted `withdraw` leaves storage untouched; a successful one
yields the new storage. -/
def applyWithdraw (st : ContractState) (streamId : Nat) (c : WithdrawCall) : ContractState :=
  match withdraw st streamId c.now c.allowance c.transferOk with
  | .ok st' => st'
  | .error _ => st

/-! ## SDK status and validation -/

/-- `getStreamStatus(stream, currentTime)` from the SDK: `ACTIVE` before
`start`; from `end` on, `SETTLED` when the optional `settled` field equals
`ratePerSecond * (end - start)` (an absent field never equals a bigint)
and `EXPIRED` otherwise; `ACTIVE` in every remaining case. -/
def getStreamStatus (stream : Stream) (currentTime : Int) : StreamStatus :=
  if currentTime < stream.start then .ACTIVE
  else if stream.end_ ≤ currentTime then
    let totalAmount := stream.ratePerSecond * (stream.end_ - stream.start)
    if stream.settled = some totalAmount then .SETTLED else .EXPIRED
  else .ACTIVE

/-- `isStreamActive(stream, currentTime)` from the SDK: inside the time
window and the optional `paused` flag not set (an absent flag is falsy). -/
def isStreamActive (stream : Stream) (currentTime : Int) : Bool :=
  stream.start ≤ currentTime && currentTime < stream.end_ && !(stream.paused.getD false)

/-- The SDK `ValidationResult`: an absent `errors`/`warnings` array is
embedded as the empty list. -/
structure ValidationResult where
  valid : Bool
  errors : List String := []
  warnings : List String := []
deriving DecidableEq, Repr

/-- JS truthiness of an optional bigint field: present and non-zero. -/
def truthyInt (x : Option Int) : Bool :=
  match x with
  | none => false
  | some v => v != 0

/-- `validateStream(stream)` from the SDK.  Error texts follow the source
with the source's inner quotes elided.  The `total`-mismatch warning and
the `settled`-exceeds-total error guard on JS truthiness of the optional
fields (`stream.total && ...`, `stream.settled && ...`), so a present but
zero field is skipped; `stream.total || total` falls back to the computed
total when the stored one is absent or zero. -/
def validateStream (stream : Stream) : ValidationResult :=
  let errors :=
    (if stream.from_.length = 0 then ["Stream from address is required"] else []) ++
    (if stream.to_.length = 0 then ["Stream to address is required"] else []) ++
    (if stream.ratePerSecond ≤ 0 then ["Rate per second must be positive"] else []) ++
    (if stream.end_ ≤ stream.start then ["Stream start time must be before end time"] else []) ++
    (if stream.start < 0 ∨ stream.end_ < 0 then ["Stream times must be non-negative"] else [])
  let duration := stream.end_ - stream.start
  let total := stream.ratePerSecond * duration
  let warnings :=
    if truthyInt stream.total ∧ stream.total ≠ some total
    then ["Total amount does not match rate * duration"] else []
  let errors := errors ++
    (if truthyInt stream.settled ∧
        (if truthyInt stream.total then stream.total.getD 0 else total) < stream.settled.getD 0
     then ["Settled amount exceeds total"] else [])
  { valid := errors.isEmpty, errors := errors, warnings := warnings }

/-- The indexed error-collecting loop of `BatchStreamManager.validateBatch`:
one `Stream i: <joined errors>` entry per invalid stream, in order. -/
def batchItemErrors : Nat → List Stream → List String
  | _, [] => []
  | i, s :: rest =>
    (if (validateStream s).valid then []
     else ["Stream " ++ toString i ++ ": " ++ String.intercalate ", " (validateStream s).errors]) ++
    batchItemErrors (i + 1) rest

/-- `BatchStreamManager.validateBatch(streams)` from the SDK: an emptiness
error, a hard-coded 1000-stream size cap, then the per-item errors — all
collected, never short-circuited. -/
def validateBatch (streams : List Stream) : ValidationResult :=
  let errors :=
    (if streams.length = 0 then ["Batch is empty"] else []) ++
    (if 1000 < streams.length then ["Batch size exceeds 1000 streams"] else []) ++
    batchItemErrors 0 streams
  { valid := errors.isEmpty, errors := errors }

/-! ## SDK `StreamManager` -/

/-- The value type of `StreamManager.streams`: a `Stream` extended with its
id and a tracked status. -/
structure ManagedStream extends Stream where
  id : String
  status : StreamStatus
deriving DecidableEq, Repr

/-- The mutable state of a `StreamManager`: the `streams` map and the
per-user id index, both embedded as total functions on keys. -/
structure StreamManagerState where
  streams : String → Option ManagedStream
  streamsByUser : String → List String

/-- `StreamManager.updateSettlement(streamId, settledAmount)`: if the id is
tracked, overwrite that stream's `settled` field with the given value,
unconditionally; otherwise do nothing. -/
def updateSettlement (st : StreamManagerState) (streamId : String) (settledAmount : Int) :
    StreamManagerState :=
  match st.streams streamId with
  | none => st
  | some m =>
    { st with streams := fun k =>
        if k = streamId then some { m with settled := some settledAmount } else st.streams k }

/-! ## SDK amount formatting

`formatStreamAmount` renders a bigint as `"<integer>.<fraction>"` where the
fraction is `padStart`-ed to `decimals` digits; `parseStreamAmount` splits
at the dot, `padEnd`s / truncates the fraction to `decimals` digits and
recombines.  The decimal digit strings are embedded as big-endian lists of
digits and the dot-separated result as the pair of its two digit runs (a JS
bigint decimal string contains no dot, and the JS `Number` literal
`10 ** decimals` is exact for every `decimals ≤ 18`, so `BigInt(10 **
decimals)` is exactly `10 ^ decimals` in the claimed range). -/

/-- Big-endian base-10 digits of a positive number, with enough fuel
(`[]` for zero). -/
def toDecimalAux : Nat → Nat → List Nat
  | _, 0 => []
  | 0, _ + 1 => []
  | fuel + 1, n + 1 => toDecimalAux fuel ((n + 1) / 10) ++ [(n + 1) % 10]

/-- JS `bigint.toString()` as a big-endian digit list (`"0"` for zero). -/
def toDecimalDigits (n : Nat) : List Nat :=
  if n = 0 then [0] else toDecimalAux n n

/-- `String.prototype.padStart(len, "0")` on a digit string. -/
def padStartZero (l : List Nat) (len : Nat) : List Nat :=
  List.replicate (len - l.length) 0 ++ l

/-- `String.prototype.padEnd(len, "0")` on a digit string. -/
def padEndZero (l : List Nat) (len : Nat) : List Nat :=
  l ++ List.replicate (len - l.length) 0

/-- `BigInt` of a big-endian digit string (leading zeros allowed). -/
def parseDigits (l : List Nat) : Nat :=
  l.foldl (fun acc d => acc * 10 + d) 0

/-- `formatStreamAmount(amount, decimals)` for a non-negative amount:
the integer-part digits and the `decimals`-padded fractional-part digits
of `"<integer>.<fraction>"`. -/
def formatStreamAmount (amount : Nat) (decimals : Nat) : List Nat × List Nat :=
  let divisor := 10 ^ decimals
  (toDecimalDigits (amount / divisor), padStartZero (toDecimalDigits (amount % divisor)) decimals)

/-- `parseStreamAmount(amount, decimals)` on a dot-separated digit string:
`integer * 10^decimals + fraction`, the fraction first `padEnd`-ed with
zeros and truncated to `decimals` digits. -/
def parseStreamAmount (amount : List Nat × List Nat) (decimals : Nat) : Nat :=
  parseDigits amount.1 * 10 ^ decimals + parseDigits ((padEndZero amount.2 decimals).take decimals)

/-! ## Spec-modelled settlement engine (pause/resume)

The repository ships no pause/resume operation: the `Stream` type declares
an optional `paused` flag and `isStreamActive` reads it, but no code under
`src/` guards `withdraw` on it or implements `resume`. -/

/-- Modelled from the spec: recoverable settlement-engine errors of §4.3
(`NothingDue`, `StreamPaused`, `InvalidTransition`). -/
inductive SpecError where
  | nothingDue
  | streamPaused
  | invalidTransition
deriving DecidableEq, Repr

/-- Modelled from the spec: §3's Stream ledger entity restricted to the
fields the pause scenario needs (`rate_per_second`, `start_time`,
`end_time`, `settled_amount`, `paused`). -/
structure SpecStream where
  ratePerSecond : Nat
  start : Nat
  end_ : Nat
  settledAmount : Nat
  paused : Bool
deriving DecidableEq, Repr

/-- Modelled from the spec: §4.1 `flowed_amount(rate, start, end, now)` —
0 before `start`, `rate * (end - start)` from `end` on, `rate * (now -
start)` in between. -/
def flowedAmount (rate start end_ now : Nat) : Nat :=
  if now ≤ start then 0
  else if end_ ≤ now then rate * (end_ - start)
  else rate * (now - start)

/-- Modelled from the spec: §4.3 `withdrawable(stream, now)` —
`flowed_amount - settled_amount`, clamped to be non-negative
(`Nat` subtraction clamps). -/
def specWithdrawable (s : SpecStream) (now : Nat) : Nat :=
  flowedAmount s.ratePerSecond s.start s.end_ now - s.settledAmount

/-- Modelled from the spec: §3's `SettlementReceipt` (sans stream id). -/
structure SpecReceipt where
  amountTransferred : Nat
  newSettledTotal : Nat
  atTime : Nat
deriving DecidableEq, Repr

/-- Modelled from the spec: §4.3 `withdraw(stream, request)`, absent from
`src/`.  The paused guard is checked first so that a paused stream always
fails with `StreamPaused` (§8's pause scenario); then the due amount
(capped by the optional requested amount) must be non-zero, and on success
`settled_amount += amount`.  A failure carries no state: all-or-nothing. -/
def specWithdraw (s : SpecStream) (requested : Option Nat) (atTime : Nat) :
    Except SpecError (SpecStream × SpecReceipt) :=
  if s.paused then .error .streamPaused
  else
    let due := specWithdrawable s atTime
    let amount := match requested with
      | some r => min r due
      | none => due
    if amount = 0 then .error .nothingDue
    else .ok ({ s with settledAmount := s.settledAmount + amount },
              ⟨amount, s.settledAmount + amount, atTime⟩)

/-- Modelled from the spec: §4.3 `resume(stream)`, legal only from the
Paused state; resuming only clears the flag (no timestamp is recorded, per
the paused-time-still-accrues design decision). -/
def specResume (s : SpecStream) : Except SpecError SpecStream :=
  if s.paused then .ok { s with paused := false }
  else .error .invalidTransition

/-! ## Helper lemmas -/

/-- The owed amount inside `getWithdrawable` is `(min now end - start) * rate`,
and the claimed-branch structure is exactly clamped subtraction of the
already-withdrawn amount. -/
theorem withdrawableAmount_eq (s : CStream) (w now : Nat) (h : s.start < s.end_) :
    withdrawableAmount s w now = (min now s.end_ - s.start) * s.ratePerSecond - w := by
  unfold withdrawableAmount
  have hmin : (if now < s.end_ then now else s.end_) = min now s.end_ := by
    rcases Nat.lt_or_ge now s.end_ with h1 | h1
    · simp [h1, Nat.min_eq_left (Nat.le_of_lt h1)]
    · simp [Nat.not_lt.mpr h1, Nat.min_eq_right h1]
  rw [hmin]
  by_cases h0 : now ≤ s.start
  · have : min now s.end_ - s.start = 0 := by
      have := Nat.min_le_left now s.end_
      omega
    simp [h0, this]
  · simp only [h0, if_false]
    generalize (min now s.end_ - s.start) * s.ratePerSecond = t
    split_ifs with h1 <;> omega

/-- The owed amount of the contract coincides with the SDK flow function on
the same stream parameters. -/
theorem totalOwed_eq_flow (s : CStream) (now : Nat) (h : s.start < s.end_) :
    (((min now s.end_ - s.start) * s.ratePerSecond : Nat) : Int) =
      calculateStreamFlow s.toStream now := by
  unfold calculateStreamFlow CStream.toStream
  simp only
  by_cases h1 : now ≤ s.start
  · have hm : min now s.end_ - s.start = 0 := by
      have := Nat.min_le_left now s.end_
      omega
    rcases Nat.lt_or_ge now s.start with h2 | h2
    · simp [hm, show ((now : Int) < (s.start : Int)) from by exact_mod_cast h2]
    · have hns : now = s.start := le_antisymm h1 h2
      have hlt : ¬ ((now : Int) < (s.start : Int)) := by
        exact_mod_cast Nat.not_lt.mpr h2
      have hend : ¬ ((s.end_ : Int) ≤ (now : Int)) := by
        exact_mod_cast Nat.not_le.mpr (by omega)
      simp only [hm, hlt, if_false, hend, Nat.cast_zero]
      rw [hns]
      simp
  · push_neg at h1
    by_cases h2 : now < s.end_
    · have hm : min now s.end_ = now := Nat.min_eq_left (Nat.le_of_lt h2)
      have hns : ¬ ((now : Int) < (s.start : Int)) := by exact_mod_cast Nat.not_lt.mpr (Nat.le_of_lt h1)
      have hne : ¬ ((s.end_ : Int) ≤ (now : Int)) := by exact_mod_cast Nat.not_le.mpr h2
      simp only [hm, hns, if_false, hne]
      push_cast [Nat.cast_sub (Nat.le_of_lt h1)]
      ring
    · push_neg at h2
      have hm : min now s.end_ = s.end_ := Nat.min_eq_right h2
      have hns : ¬ ((now : Int) < (s.start : Int)) := by
        exact_mod_cast Nat.not_lt.mpr (Nat.le_of_lt (Nat.lt_of_lt_of_le h h2))
      have hne : (s.end_ : Int) ≤ (now : Int) := by exact_mod_cast h2
      simp only [hm, hns, if_false, if_pos hne]
      push_cast [Nat.cast_sub (Nat.le_of_lt h)]
      ring

/-! ## C1: conservation -/

/-- The stream of the C1 counterexample: `rate = 1`, `start = 0`, `end = 10`. -/
def conservationCexStream : CStream :=
  { from_ := 1, to_ := 2, ratePerSecond := 1, start := 0, end_ := 10 }

/-- Contract storage for the C1 counterexample: the stream above with an
already-withdrawn amount of 7 (as `StreamManager.updateSettlement` or a
directly initialized ledger can produce). -/
def conservationCexState : ContractState :=
  { streams := [conservationCexStream], withdrawn := fun i => if i = 0 then 7 else 0 }

/-- C1 (counterexample): at `now = 5` the flowed amount is 5 but the
already-withdrawn amount is 7, and `getWithdrawable` clamps to 0, so
`getWithdrawable + withdrawn = 7 ≠ 5 = calculateStreamFlow` — conservation
fails when the withdrawn amount exceeds the flowed amount. -/
theorem conservation_counterexample :
    ¬ (((getWithdrawable conservationCexState 0 5).getD 0 : Int) +
        (conservationCexState.withdrawn 0 : Int) =
        calculateStreamFlow conservationCexStream.toStream 5) := by decide

/-- C1 (amended): for a valid stream (`start < end`), whenever the
already-withdrawn amount does not exceed the flowed amount,
`getWithdrawable(streamId) + withdrawn[streamId] = calculateStreamFlow(stream, now)`;
the unrestricted claim fails because `getWithdrawable` clamps at 0 when the
withdrawn amount exceeds the flowed amount. -/
theorem conservation_of_withdrawable (st : ContractState) (streamId now : Nat) (s : CStream)
    (hs : st.streams[streamId]? = some s) (hwin : s.start < s.end_)
    (hle : (st.withdrawn streamId : Int) ≤ calculateStreamFlow s.toStream now) :
    ((getWithdrawable st streamId now).getD 0 : Int) + (st.withdrawn streamId : Int) =
      calculateStreamFlow s.toStream now := by
  have hto := totalOwed_eq_flow s now hwin
  have hwa := withdrawableAmount_eq s (st.withdrawn streamId) now hwin
  have hleN : st.withdrawn streamId ≤ (min now s.end_ - s.start) * s.ratePerSecond := by
    rw [← hto] at hle
    exact_mod_cast hle
  simp only [getWithdrawable, hs, Option.getD_some]
  rw [hwa, ← hto]
  push_cast [Nat.cast_sub hleN]
  ring

/-- C1 witness: a concrete valid stream with withdrawn = 3 ≤ flowed = 5 at
`now = 5`, where conservation holds. -/
theorem conservation_of_withdrawable_witness :
    ((getWithdrawable ⟨[conservationCexStream], fun _ => 3⟩ 0 5).getD 0 : Int) + (3 : Int) =
      calculateStreamFlow conservationCexStream.toStream 5 :=
  conservation_of_withdrawable ⟨[conservationCexStream], fun _ => 3⟩ 0 5 conservationCexStream
    rfl (by decide) (by decide)

/-! ## C5: boundary clamping -/

/-- A bare SDK stream carrying only the numeric parameters. -/
def mkStream (rate start end_ : Int) : Stream :=
  { from_ := "", to_ := "", ratePerSecond := rate, start := start, end_ := end_ }

/-- C5: for every `rate`, `start < end` and every `now`,
`calculateStreamFlow` returns exactly 0 when `now ≤ start`, exactly
`rate * (end - start)` when `now ≥ end`, and exactly `rate * (now - start)`
otherwise. -/
theorem flow_boundary (rate start end_ now : Int) (hwin : start < end_) :
    (now ≤ start → calculateStreamFlow (mkStream rate start end_) now = 0) ∧
    (end_ ≤ now → calculateStreamFlow (mkStream rate start end_) now = rate * (end_ - start)) ∧
    (start < now → now < end_ →
      calculateStreamFlow (mkStream rate start end_) now = rate * (now - start)) := by
  unfold calculateStreamFlow mkStream
  simp only
  refine ⟨fun h1 => ?_, fun h2 => ?_, fun h3 h4 => ?_⟩
  · rcases lt_or_eq_of_le h1 with h | h
    · simp [h]
    · subst h
      simp [lt_irrefl, Int.not_le.mpr hwin]
  · have : ¬ now < start := by omega
    simp [this, h2]
  · have h5 : ¬ now < start := by omega
    have h6 : ¬ end_ ≤ now := by omega
    simp [h5, h6]

/-- C5 witness: `rate = 1`, `end - start = 1` hits the two boundary cases,
and a window of width 2 hits the interior case. -/
theorem flow_boundary_witness :
    calculateStreamFlow (mkStream 1 0 1) 0 = 0 ∧
    calculateStreamFlow (mkStream 1 0 1) 1 = 1 * (1 - 0) ∧
    calculateStreamFlow (mkStream 1 0 2) 1 = 1 * (1 - 0) :=
  ⟨(flow_boundary 1 0 1 0 (by norm_num)).1 (by norm_num),
   (flow_boundary 1 0 1 1 (by norm_num)).2.1 (by norm_num),
   (flow_boundary 1 0 2 1 (by norm_num)).2.2 (by norm_num) (by norm_num)⟩

/-! ## Withdraw step lemmas -/

/-- `withdraw` never touches the `streams` array. -/
theorem withdraw_streams_eq {st st' : ContractState} {streamId now allowance : Nat}
    {transferOk : Bool} (h : withdraw st streamId now allowance transferOk = .ok st') :
    st'.streams = st.streams := by
  unfold withdraw at h
  cases hm : st.streams[streamId]? with
  | none => rw [hm] at h; cases h
  | some s =>
    rw [hm] at h
    simp only at h
    split_ifs at h with h1 h2 h3 <;> cases h <;> rfl

/-- A successful `withdraw` sets `withdrawn[streamId]` to exactly the owed
amount `(min now end - start) * rate` (it tops the record up from whatever
it was to everything owed so far). -/
theorem withdraw_ok_withdrawn {st st' : ContractState} {streamId now allowance : Nat}
    {transferOk : Bool} {s : CStream} (hs : st.streams[streamId]? = some s)
    (h : withdraw st streamId now allowance transferOk = .ok st') :
    st'.withdrawn streamId =
      st.withdrawn streamId + withdrawableAmount s (st.withdrawn streamId) now ∧
    withdrawableAmount s (st.withdrawn streamId) now ≠ 0 := by
  unfold withdraw at h
  rw [hs] at h
  simp only at h
  split_ifs at h with h1 h2 h3 <;> cases h <;> exact ⟨by simp, h1⟩

/-- After a reverted `withdraw`, nothing changed; after a successful one the
recorded amount did not decrease. -/
theorem applyWithdraw_mono (st : ContractState) (streamId : Nat) (c : WithdrawCall) :
    st.withdrawn streamId ≤ (applyWithdraw st streamId c).withdrawn streamId := by
  unfold applyWithdraw
  cases h : withdraw st streamId c.now c.allowance c.transferOk with
  | error e => exact le_refl _
  | ok st' =>
    show st.withdrawn streamId ≤ st'.withdrawn streamId
    cases hm : st.streams[streamId]? with
    | none =>
      exfalso
      unfold withdraw at h
      rw [hm] at h
      cases h
    | some s =>
      have := (withdraw_ok_withdrawn hm h).1
      omega

/-- `applyWithdraw` never touches the `streams` array. -/
theorem applyWithdraw_streams_eq (st : ContractState) (streamId : Nat) (c : WithdrawCall) :
    (applyWithdraw st streamId c).streams = st.streams := by
  unfold applyWithdraw
  cases h : withdraw st streamId c.now c.allowance c.transferOk with
  | error e => rfl
  | ok st' => exact withdraw_streams_eq h

/-- The owed amount never exceeds the stream's total capacity. -/
theorem totalOwed_le_capacity (s : CStream) (now : Nat) :
    (min now s.end_ - s.start) * s.ratePerSecond ≤ s.ratePerSecond * (s.end_ - s.start) := by
  rw [Nat.mul_comm]
  apply Nat.mul_le_mul_left
  have := Nat.min_le_right now s.end_
  omega

/-- A chain of steps each of which respects `r` yields an `r`-chain of the
intermediate states. -/
theorem chain'_scanl {α β : Type} (r : β → β → Prop) (f : β → α → β)
    (hstep : ∀ b a, r b (f b a)) (b : β) (l : List α) :
    List.Chain' r (List.scanl f b l) := by
  induction l generalizing b with
  | nil => simp
  | cons a l ih =>
    rw [List.scanl]
    refine List.Chain'.cons' (ih (f b a)) ?_
    intro c hc
    cases l with
    | nil => simp [List.scanl] at hc; subst hc; exact hstep b a
    | cons a' l' => simp [List.scanl] at hc; subst hc; exact hstep b a

/-! ## C2: monotonicity and capacity bound -/

/-- C2: for a valid stream (`rate > 0`, `start < end`) and any sequence of
`withdraw` calls with non-decreasing observation timestamps, the recorded
`withdrawn[streamId]` is non-decreasing across the sequence, and after
every successful `withdraw` it satisfies
`0 ≤ withdrawn[streamId] ≤ ratePerSecond * (end - start)`. -/
theorem settled_monotone_and_bounded (st : ContractState) (streamId : Nat) (s : CStream)
    (calls : List WithdrawCall) (hs : st.streams[streamId]? = some s)
    (hrate : 0 < s.ratePerSecond) (hwin : s.start < s.end_)
    (hmono : List.Chain' (· ≤ ·) (calls.map WithdrawCall.now)) :
    List.Chain' (· ≤ ·)
      ((List.scanl (fun t c => applyWithdraw t streamId c) st calls).map
        (fun t => t.withdrawn streamId)) ∧
    (∀ (st0 st1 : ContractState) (c : WithdrawCall),
      st0.streams = st.streams →
      withdraw st0 streamId c.now c.allowance c.transferOk = .ok st1 →
      0 ≤ st1.withdrawn streamId ∧
        st1.withdrawn streamId ≤ s.ratePerSecond * (s.end_ - s.start)) := by
  constructor
  · rw [List.chain'_map]
    exact chain'_scanl _ _ (fun t c => applyWithdraw_mono t streamId c) st calls
  · intro st0 st1 c hstreams hok
    have hs0 : st0.streams[streamId]? = some s := by rw [hstreams]; exact hs
    obtain ⟨hset, hne⟩ := withdraw_ok_withdrawn hs0 hok
    rw [withdrawableAmount_eq s _ c.now hwin] at hset hne
    have hcap := totalOwed_le_capacity s c.now
    constructor
    · exact Nat.zero_le _
    · omega

/-- C2 witness: a fresh two-second-rate stream over `[0, 5)` withdrawn at
times 3 then 4. -/
theorem settled_monotone_and_bounded_witness :
    List.Chain' (· ≤ ·)
      ((List.scanl (fun t c => applyWithdraw t 0 c)
        (⟨[⟨1, 2, 2, 0, 5⟩], fun _ => 0⟩ : ContractState)
        [⟨3, 100, true⟩, ⟨4, 100, true⟩]).map (fun t => t.withdrawn 0)) ∧
    (∀ (st0 st1 : ContractState) (c : WithdrawCall),
      st0.streams = (⟨[⟨1, 2, 2, 0, 5⟩], fun _ => 0⟩ : ContractState).streams →
      withdraw st0 0 c.now c.allowance c.transferOk = .ok st1 →
      0 ≤ st1.withdrawn 0 ∧ st1.withdrawn 0 ≤ 2 * (5 - 0)) :=
  settled_monotone_and_bounded ⟨[⟨1, 2, 2, 0, 5⟩], fun _ => 0⟩ 0 ⟨1, 2, 2, 0, 5⟩
    [⟨3, 100, true⟩, ⟨4, 100, true⟩] rfl (by decide) (by decide)
    (by simp [List.chain'_cons, List.chain'_singleton])

/-! ## C6: idempotence of full withdrawal, all-or-nothing failure -/

/-- Withdrawing everything owed leaves nothing withdrawable at the same
observation time. -/
theorem withdrawableAmount_after_full (s : CStream) (w now : Nat) :
    withdrawableAmount s (w + withdrawableAmount s w now) now = 0 := by
  unfold withdrawableAmount
  by_cases h0 : now ≤ s.start
  · simp [h0]
  · simp only [h0, if_false]
    generalize ((if now < s.end_ then now else s.end_) - s.start) * s.ratePerSecond = t
    split_ifs with h1 h2 <;> omega

/-- C6: after a successful `withdraw` at time `now`, the withdrawable
amount at the same `now` is 0 and an immediately repeated `withdraw`
reverts with `nothing to withdraw` (the `NothingDue` condition); and every
reverted `withdraw` leaves the `withdrawn` record unchanged
(all-or-nothing). -/
theorem withdraw_idempotent_all_or_nothing (st st1 : ContractState)
    (streamId now allowance : Nat) (transferOk : Bool)
    (hok : withdraw st streamId now allowance transferOk = .ok st1) :
    getWithdrawable st1 streamId now = some 0 ∧
    (∀ (a : Nat) (t : Bool), withdraw st1 streamId now a t = .error .nothingToWithdraw) ∧
    (∀ (st0 : ContractState) (c : WithdrawCall) (e : WithdrawError),
      withdraw st0 streamId c.now c.allowance c.transferOk = .error e →
      applyWithdraw st0 streamId c = st0) := by
  have hstreams := withdraw_streams_eq hok
  cases hm : st.streams[streamId]? with
  | none =>
    exfalso
    unfold withdraw at hok
    rw [hm] at hok
    cases hok
  | some s =>
    obtain ⟨hset, hne⟩ := withdraw_ok_withdrawn hm hok
    have hm1 : st1.streams[streamId]? = some s := by rw [hstreams]; exact hm
    have hzero : withdrawableAmount s (st1.withdrawn streamId) now = 0 := by
      rw [hset]
      exact withdrawableAmount_after_full s (st.withdrawn streamId) now
    refine ⟨?_, ?_, ?_⟩
    · unfold getWithdrawable
      rw [hm1]
      show some (withdrawableAmount s (st1.withdrawn streamId) now) = some 0
      rw [hzero]
    · intro a t
      unfold withdraw
      rw [hm1]
      simp only
      rw [if_pos hzero]
    · intro st0 c e herr
      unfold applyWithdraw
      rw [herr]

/-- C6 witness: a fully executed withdrawal at `now = 5` on a fresh unit
stream over `[0, 10)`. -/
theorem withdraw_idempotent_all_or_nothing_witness :
    getWithdrawable
      (applyWithdraw (⟨[conservationCexStream], fun _ => 0⟩ : ContractState) 0 ⟨5, 100, true⟩)
      0 5 = some 0 ∧
    (∀ (a : Nat) (t : Bool),
      withdraw
        (applyWithdraw (⟨[conservationCexStream], fun _ => 0⟩ : ContractState) 0 ⟨5, 100, true⟩)
        0 5 a t = .error .nothingToWithdraw) ∧
    (∀ (st0 : ContractState) (c : WithdrawCall) (e : WithdrawError),
      withdraw st0 0 c.now c.allowance c.transferOk = .error e →
      applyWithdraw st0 0 c = st0) :=
  withdraw_idempotent_all_or_nothing ⟨[conservationCexStream], fun _ => 0⟩
    (applyWithdraw (⟨[conservationCexStream], fun _ => 0⟩ : ContractState) 0 ⟨5, 100, true⟩)
    0 5 100 true rfl

/-! ## C3: status classification -/

/-- A fully-settled stream observed before its end time: `settled` equals
`rate * (end - start)` yet `now = 5 < end = 10`. -/
def settledEarlyStream : Stream :=
  { from_ := "payer", to_ := "payee", ratePerSecond := 1, start := 0, end_ := 10,
    settled := some 10 }

/-- C3 (counterexample): `getStreamStatus` classifies a fully-settled
stream as `ACTIVE` whenever `now < end` — it returns `SETTLED` only from
`end` on, so "Settled exactly when `settled_amount == total_capacity`"
fails on the code. -/
theorem status_settled_counterexample :
    settledEarlyStream.settled =
      some (settledEarlyStream.ratePerSecond *
        (settledEarlyStream.end_ - settledEarlyStream.start)) ∧
    getStreamStatus settledEarlyStream 5 ≠ StreamStatus.SETTLED ∧
    getStreamStatus settledEarlyStream 5 = StreamStatus.ACTIVE := by decide

/-- C3 (amended): for every stream with `start < end` and every `now`,
`getStreamStatus` returns `SETTLED` exactly when `now ≥ end` and
`settled = rate * (end - start)`, `EXPIRED` exactly when `now ≥ end` and
`settled ≠ rate * (end - start)`, and `ACTIVE` exactly when `now < end`
(including before `start` and for a fully-settled stream before `end`);
no cancellation input exists in the code path. -/
theorem status_classification (s : Stream) (now : Int) (hwin : s.start < s.end_) :
    (getStreamStatus s now = StreamStatus.SETTLED ↔
      s.end_ ≤ now ∧ s.settled = some (s.ratePerSecond * (s.end_ - s.start))) ∧
    (getStreamStatus s now = StreamStatus.EXPIRED ↔
      s.end_ ≤ now ∧ s.settled ≠ some (s.ratePerSecond * (s.end_ - s.start))) ∧
    (getStreamStatus s now = StreamStatus.ACTIVE ↔ now < s.end_) := by
  unfold getStreamStatus
  by_cases h1 : now < s.start
  · have h2 : ¬ s.end_ ≤ now := by omega
    have h3 : now < s.end_ := by omega
    simp [h1, h2, h3]
  · simp only [h1, if_false]
    by_cases h2 : s.end_ ≤ now
    · by_cases h3 : s.settled = some (s.ratePerSecond * (s.end_ - s.start))
      · simp [h2, h3] <;> omega
      · simp [h2, h3] <;> omega
    · simp [h2] <;> omega

/-- C3 witness: the amended classification evaluated at the counterexample
stream before its end time, and at its end time. -/
theorem status_classification_witness :
    (getStreamStatus settledEarlyStream 5 = StreamStatus.ACTIVE ↔ (5 : Int) < settledEarlyStream.end_) ∧
    (getStreamStatus settledEarlyStream 10 = StreamStatus.SETTLED ↔
      settledEarlyStream.end_ ≤ 10 ∧
      settledEarlyStream.settled =
        some (settledEarlyStream.ratePerSecond *
          (settledEarlyStream.end_ - settledEarlyStream.start))) :=
  ⟨(status_classification settledEarlyStream 5 (by decide)).2.2,
   (status_classification settledEarlyStream 10 (by decide)).1⟩

/-! ## C4: overflow safety of flow arithmetic -/

/-- The spec's overflow stress stream: `rate = 10^27`, one year of seconds. -/
def overflowStream : Stream :=
  { from_ := "payer", to_ := "payee", ratePerSecond := 10 ^ 27, start := 0,
    end_ := 31536000 }

/-- C4: with `rate = 10^27` and `end - start = 31_536_000`,
`calculateStreamFlow` returns the exact mathematical product
`rate * elapsed` for every observation time (the embedding is over `ℤ`
because JS `bigint` is arbitrary-precision: no wraparound exists to check,
so the result is never wrapped or truncated, and the product strictly
exceeds the 64-bit range it would have wrapped in); on the contract side,
the `uint256` product `elapsed * rate` in `getWithdrawable` is bounded by
`2^192 < 2^256` for every in-range stream, so Solidity 0.8's checked
multiplication never fires and never wraps. -/
theorem flow_exact_no_overflow :
    (∀ now : Int, overflowStream.end_ ≤ now →
      calculateStreamFlow overflowStream now = 10 ^ 27 * 31536000) ∧
    (∀ now : Int, 0 ≤ now → now ≤ overflowStream.end_ →
      calculateStreamFlow overflowStream now = 10 ^ 27 * now) ∧
    (2 ^ 64 < 10 ^ 27 * 31536000) ∧
    (∀ (s : CStream) (now : Nat), s.ratePerSecond < 2 ^ 128 → s.end_ < 2 ^ 64 →
      (min now s.end_ - s.start) * s.ratePerSecond < 2 ^ 192 ∧ (2 ^ 192 : Nat) < 2 ^ 256) := by
  refine ⟨?_, ?_, by norm_num, ?_⟩
  · intro now h
    unfold calculateStreamFlow overflowStream at *
    simp only at h ⊢
    have h1 : ¬ now < (0 : Int) := by omega
    simp [h1, h] <;> norm_num
  · intro now h0 hle
    unfold calculateStreamFlow overflowStream at *
    simp only at hle ⊢
    have h1 : ¬ now < (0 : Int) := by omega
    rcases lt_or_eq_of_le hle with h2 | h2
    · have h3 : ¬ (31536000 : Int) ≤ now := by omega
      simp [h1, h3]
    · simp [h1, h2] <;> norm_num
  · intro s now h128 h64
    constructor
    · have helapsed : min now s.end_ - s.start < 2 ^ 64 := by
        have := Nat.min_le_right now s.end_
        omega
      calc (min now s.end_ - s.start) * s.ratePerSecond
          < 2 ^ 64 * 2 ^ 128 := by
            rcases Nat.eq_zero_or_pos s.ratePerSecond with hz | hz
            · simp [hz]
            · exact Nat.mul_lt_mul'' helapsed h128
        _ = 2 ^ 192 := by norm_num
    · norm_num

/-- C4 witness: the exact year-long product at `now = end`, and the
contract bound at the largest in-range stream. -/
theorem flow_exact_no_overflow_witness :
    calculateStreamFlow overflowStream 31536000 = 10 ^ 27 * 31536000 ∧
    (min 31536000 (2 ^ 64 - 1) - 0) * (2 ^ 128 - 1) < 2 ^ 192 :=
  ⟨flow_exact_no_overflow.1 31536000 (by norm_num [overflowStream]),
   (flow_exact_no_overflow.2.2.2 ⟨1, 2, 2 ^ 128 - 1, 0, 2 ^ 64 - 1⟩ 31536000
     (by norm_num) (by norm_num)).1⟩

/-! ## C7: pause semantics of withdraw (spec-modelled) -/

/-- C7: for every stream whose paused flag is set, `withdraw` fails with
`StreamPaused` (carrying no state change); after `resume` — which only
clears the flag and records no timestamp — a `withdraw` with positive due
succeeds, and the amount it settles is
`flowed_amount(rate, start, end, now) - settled` computed from the
stream's original `start` (paused time still accrues). -/
theorem pause_withdraw_semantics (s : SpecStream) (now : Nat) (requested : Option Nat)
    (hp : s.paused = true) :
    specWithdraw s requested now = .error .streamPaused ∧
    (∀ s', specResume s = .ok s' →
      s'.settledAmount = s.settledAmount ∧ s'.start = s.start ∧ s'.paused = false ∧
      (0 < specWithdrawable s' now →
        specWithdraw s' none now =
          .ok ({ s' with settledAmount :=
                  s.settledAmount + (flowedAmount s.ratePerSecond s.start s.end_ now - s.settledAmount) },
               ⟨flowedAmount s.ratePerSecond s.start s.end_ now - s.settledAmount,
                s.settledAmount + (flowedAmount s.ratePerSecond s.start s.end_ now - s.settledAmount),
                now⟩))) := by
  constructor
  · unfold specWithdraw
    rw [if_pos hp]
  · intro s' hres
    unfold specResume at hres
    rw [if_pos hp] at hres
    cases hres
    refine ⟨rfl, rfl, rfl, ?_⟩
    intro hdue
    unfold specWithdraw
    unfold specWithdrawable at hdue ⊢
    dsimp only at hdue ⊢
    rw [if_neg (by omega : ¬ (flowedAmount s.ratePerSecond s.start s.end_ now - s.settledAmount = 0))]
    rfl

/-- C7 witness: a paused stream with `rate = 2` over `[0, 10)` and
`settled = 4`, observed at `now = 5`. -/
theorem pause_withdraw_semantics_witness :
    specWithdraw ⟨2, 0, 10, 4, true⟩ none 5 = .error .streamPaused ∧
    (∀ s', specResume ⟨2, 0, 10, 4, true⟩ = .ok s' →
      s'.settledAmount = 4 ∧ s'.start = 0 ∧ s'.paused = false ∧
      (0 < specWithdrawable s' 5 →
        specWithdraw s' none 5 =
          .ok ({ s' with settledAmount := 4 + (flowedAmount 2 0 10 5 - 4) },
               ⟨flowedAmount 2 0 10 5 - 4, 4 + (flowedAmount 2 0 10 5 - 4), 5⟩))) :=
  pause_withdraw_semantics ⟨2, 0, 10, 4, true⟩ 5 none rfl

/-! ## C9: unchecked settlement mutation -/

/-- C9: `StreamManager.updateSettlement(id, v)` sets the tracked stream's
`settled` field to exactly `v` unconditionally — any `v`, with no
monotonicity or capacity check — keeps every other field of that entry and
every other tracked stream unchanged, leaves the per-user index untouched,
and does nothing when the id is untracked. -/
theorem updateSettlement_unchecked (st : StreamManagerState) (streamId : String) (v : Int) :
    (st.streams streamId = none → updateSettlement st streamId v = st) ∧
    (∀ m, st.streams streamId = some m →
      (updateSettlement st streamId v).streams streamId = some { m with settled := some v } ∧
      (∀ k, k ≠ streamId → (updateSettlement st streamId v).streams k = st.streams k) ∧
      (updateSettlement st streamId v).streamsByUser = st.streamsByUser) := by
  constructor
  · intro h
    unfold updateSettlement
    rw [h]
  · intro m hm
    unfold updateSettlement
    rw [hm]
    refine ⟨by simp, fun k hk => by simp [hk], rfl⟩

/-- A tracked stream `"s1"` with capacity 10 and settled amount 7. -/
def demoManaged : ManagedStream :=
  { from_ := "a", to_ := "b", ratePerSecond := 1, start := 0, end_ := 10,
    settled := some 7, id := "s1", status := StreamStatus.ACTIVE }

/-- A manager tracking exactly the stream `"s1"`. -/
def demoManager : StreamManagerState :=
  { streams := fun k => if k = "s1" then some demoManaged else none,
    streamsByUser := fun _ => [] }

/-- C9 witness: updating `"s1"` to 1000000 — far above capacity — rewrites
just the `settled` field, and updating the untracked `"s2"` is a no-op. -/
theorem updateSettlement_unchecked_witness :
    updateSettlement demoManager "s2" 1000000 = demoManager ∧
    (updateSettlement demoManager "s1" 1000000).streams "s1" =
      some { demoManaged with settled := some 1000000 } ∧
    (updateSettlement demoManager "s1" 1000000).streams "other" = demoManager.streams "other" ∧
    (updateSettlement demoManager "s1" 1000000).streamsByUser = demoManager.streamsByUser :=
  ⟨(updateSettlement_unchecked demoManager "s2" 1000000).1 rfl,
   ((updateSettlement_unchecked demoManager "s1" 1000000).2 demoManaged rfl).1,
   ((updateSettlement_unchecked demoManager "s1" 1000000).2 demoManaged rfl).2.1 "other"
     (by decide),
   ((updateSettlement_unchecked demoManager "s1" 1000000).2 demoManaged rfl).2.2⟩

/-! ## C8: batch validation -/

/-- An invalid stream at position `i` contributes its index-tagged error
entry to the batch error list, wherever the loop starts counting. -/
theorem batchItemErrors_mem (ss : List Stream) :
    ∀ (k i : Nat) (s : Stream), ss[i]? = some s → (validateStream s).valid = false →
      ("Stream " ++ toString (k + i) ++ ": " ++
        String.intercalate ", " (validateStream s).errors) ∈ batchItemErrors k ss := by
  induction ss with
  | nil => intro k i s h _; simp at h
  | cons hd tl ih =>
    intro k i s h hinvalid
    cases i with
    | zero =>
      simp only [List.getElem?_cons_zero, Option.some.injEq] at h
      subst h
      unfold batchItemErrors
      rw [hinvalid]
      simp
    | succ i =>
      simp only [List.getElem?_cons_succ] at h
      unfold batchItemErrors
      have := ih (k + 1) i s h hinvalid
      have harith : k + (i + 1) = (k + 1) + i := by omega
      rw [harith]
      exact List.mem_append_right _ this

/-- A valid batch entry stream: positive rate, proper window. -/
def batchGoodStream : Stream :=
  { from_ := "alice", to_ := "bob", ratePerSecond := 1, start := 0, end_ := 10 }

/-- The invalid batch entry: `rate = 0`, everything else fine. -/
def batchZeroRateStream : Stream :=
  { from_ := "alice", to_ := "bob", ratePerSecond := 0, start := 0, end_ := 10 }

/-- C8: `validateBatch` is invalid on the empty list and on any list longer
than the configured maximum of 1000; every invalid stream at index `i`
contributes an error entry tagged `Stream i:` (collected, not
short-circuited); and on the 3-stream batch whose index 1 has `rate = 0`
the error list is exactly the one entry tagged index 1 — no entry
references index 0 or 2. -/
theorem validateBatch_spec :
    (validateBatch []).valid = false ∧
    (∀ ss : List Stream, 1000 < ss.length → (validateBatch ss).valid = false) ∧
    (∀ (ss : List Stream) (i : Nat) (s : Stream), ss[i]? = some s →
      (validateStream s).valid = false →
      ("Stream " ++ toString i ++ ": " ++
        String.intercalate ", " (validateStream s).errors) ∈ (validateBatch ss).errors) ∧
    ((validateBatch [batchGoodStream, batchZeroRateStream, batchGoodStream]).valid = false ∧
      (validateBatch [batchGoodStream, batchZeroRateStream, batchGoodStream]).errors =
        ["Stream 1: Rate per second must be positive"]) := by
  refine ⟨by decide, ?_, ?_, by decide, by decide⟩
  · intro ss h
    unfold validateBatch
    have h0 : ¬ ss.length = 0 := by omega
    simp only [h0, if_false, h, if_true, List.nil_append]
    rw [List.isEmpty_eq_false_iff_exists_mem.mpr
      ⟨"Batch size exceeds 1000 streams", by simp⟩]
  · intro ss i s hget hinvalid
    unfold validateBatch
    simp only
    have hmem := batchItemErrors_mem ss 0 i s hget hinvalid
    rw [Nat.zero_add] at hmem
    exact List.mem_append_right _ hmem

/-- C8 witness: a 1001-stream batch is rejected for size, and the rate-0
stream at index 1 of the concrete 3-stream batch is reported under tag
`Stream 1`. -/
theorem validateBatch_spec_witness :
    (validateBatch (List.replicate 1001 batchGoodStream)).valid = false ∧
    ("Stream " ++ toString 1 ++ ": " ++
      String.intercalate ", " (validateStream batchZeroRateStream).errors) ∈
      (validateBatch [batchGoodStream, batchZeroRateStream, batchGoodStream]).errors :=
  ⟨validateBatch_spec.2.1 (List.replicate 1001 batchGoodStream)
     (by rw [List.length_replicate]; omega),
   validateBatch_spec.2.2.1 [batchGoodStream, batchZeroRateStream, batchGoodStream] 1
     batchZeroRateStream rfl (by decide)⟩

/-! ## C10: formatting round trip -/

/-- Parsing distributes over appending one digit at the end. -/
theorem parseDigits_append_singleton (l : List Nat) (d : Nat) :
    parseDigits (l ++ [d]) = parseDigits l * 10 + d := by
  unfold parseDigits
  rw [List.foldl_append]
  rfl

/-- With enough fuel, `toDecimalAux` is a left inverse of `parseDigits`. -/
theorem parseDigits_toDecimalAux :
    ∀ (fuel n : Nat), n ≤ fuel → parseDigits (toDecimalAux fuel n) = n := by
  intro fuel
  induction fuel with
  | zero =>
    intro n h
    interval_cases n
    rfl
  | succ fuel ih =>
    intro n h
    cases n with
    | zero => rfl
    | succ n =>
      show parseDigits (toDecimalAux fuel ((n + 1) / 10) ++ [(n + 1) % 10]) = n + 1
      rw [parseDigits_append_singleton]
      have hdiv : (n + 1) / 10 ≤ fuel := by
        have := Nat.div_le_self (n + 1) 10
        have := Nat.div_lt_self (Nat.succ_pos n) (by norm_num : 1 < 10)
        omega
      rw [ih _ hdiv]
      omega

/-- `toDecimalDigits` inverts through `parseDigits`. -/
theorem parseDigits_toDecimalDigits (n : Nat) :
    parseDigits (toDecimalDigits n) = n := by
  unfold toDecimalDigits
  split_ifs with h
  · simp [h, parseDigits]
  · exact parseDigits_toDecimalAux n n (le_refl n)

/-- Leading zeros do not change the parsed value. -/
theorem parseDigits_replicate_zero (k : Nat) (l : List Nat) :
    parseDigits (List.replicate k 0 ++ l) = parseDigits l := by
  induction k with
  | zero => rfl
  | succ k ih =>
    rw [List.replicate_succ, List.cons_append]
    show parseDigits (List.replicate k 0 ++ l) = parseDigits l
    exact ih

/-- A number below `10 ^ k` has at most `k` digits. -/
theorem toDecimalAux_length :
    ∀ (fuel n k : Nat), n ≤ fuel → n < 10 ^ k → (toDecimalAux fuel n).length ≤ k := by
  intro fuel
  induction fuel with
  | zero =>
    intro n k h _
    interval_cases n
    simp [toDecimalAux]
  | succ fuel ih =>
    intro n k h hk
    cases n with
    | zero => simp [toDecimalAux]
    | succ n =>
      show (toDecimalAux fuel ((n + 1) / 10) ++ [(n + 1) % 10]).length ≤ k
      rw [List.length_append]
      have hkpos : 0 < k := by
        by_contra hc
        push_neg at hc
        interval_cases k
        simp at hk
      have hdivfuel : (n + 1) / 10 ≤ fuel := by
        have := Nat.div_lt_self (Nat.succ_pos n) (by norm_num : 1 < 10)
        omega
      have hdivlt : (n + 1) / 10 < 10 ^ (k - 1) := by
        rw [Nat.div_lt_iff_lt_mul (by norm_num : 0 < 10)]
        calc n + 1 < 10 ^ k := hk
          _ = 10 ^ (k - 1) * 10 := by
            rw [← Nat.pow_succ]
            congr 1
            omega
      have := ih ((n + 1) / 10) (k - 1) hdivfuel hdivlt
      simp only [List.length_singleton]
      omega

/-- The padded fractional digit string has exactly `decimals` digits. -/
theorem padded_fraction_length (r decimals : Nat) (h1 : 1 ≤ decimals)
    (hr : r < 10 ^ decimals) :
    (padStartZero (toDecimalDigits r) decimals).length = decimals := by
  have hlen : (toDecimalDigits r).length ≤ decimals := by
    unfold toDecimalDigits
    split_ifs with h
    · simpa using h1
    · exact toDecimalAux_length r r decimals (le_refl r) hr
  unfold padStartZero
  rw [List.length_append, List.length_replicate]
  omega

/-- C10: for every non-negative amount `a` and every `decimals` with
`1 ≤ decimals ≤ 18`, parsing the formatted amount returns `a`:
`parseStreamAmount(formatStreamAmount(a, d), d) = a`.  (The upper bound is
where the JS `Number` exponentiation `10 ** decimals` inside both functions
is still exact, which the embedding's `10 ^ decimals` presumes.) -/
theorem format_parse_roundtrip (a decimals : Nat) (h1 : 1 ≤ decimals) (h18 : decimals ≤ 18) :
    parseStreamAmount (formatStreamAmount a decimals) decimals = a := by
  unfold formatStreamAmount parseStreamAmount
  simp only
  have hmod : a % 10 ^ decimals < 10 ^ decimals :=
    Nat.mod_lt a (Nat.pos_pow_of_pos decimals (by norm_num))
  have hflen := padded_fraction_length (a % 10 ^ decimals) decimals h1 hmod
  have hpadEnd : padEndZero (padStartZero (toDecimalDigits (a % 10 ^ decimals)) decimals) decimals
      = padStartZero (toDecimalDigits (a % 10 ^ decimals)) decimals := by
    unfold padEndZero
    rw [hflen]
    simp
  rw [hpadEnd, List.take_of_length_le (le_of_eq hflen)]
  unfold padStartZero
  rw [parseDigits_replicate_zero, parseDigits_toDecimalDigits, parseDigits_toDecimalDigits]
  rw [Nat.mul_comm]
  exact Nat.div_add_mod a (10 ^ decimals)

/-- C10 witness: `1500` base units at 3 decimals — formatted `"1.500"` —
parse back to `1500`. -/
theorem format_parse_roundtrip_witness :
    1 ≤ 3 ∧ 3 ≤ 18 ∧ parseStreamAmount (formatStreamAmount 1500 3) 3 = 1500 :=
  ⟨by norm_num, by norm_num, format_parse_roundtrip 1500 3 (by norm_num) (by norm_num)⟩

end Syndual
